import Mathlib

/-!
Verification of the weighted grid layout (package layout) and the CMButton
widget of this repository.

Modelling conventions:
* Go float32/float64 arithmetic is modelled by exact rational arithmetic (ℚ).
  Every quantity appearing in the spec scenarios is exactly representable.
* Go int is modelled by ℤ.  `int(math.Ceil(x/y))` on integer operands is
  modelled by the exact ceiling of the rational quotient.
* A fyne `CanvasObject` is modelled by the capability set the layout uses:
  a visibility flag and an intrinsic minimum size (`Child`).
* `Layout` mutates its children through Move/Resize.  We model a run of
  Layout as the parallel list of the Move/Resize calls it performs: entry k
  is `some (pos, size)` when child k was moved to `pos` and resized to
  `size`, and `none` when child k was left untouched.
* The debug `fmt.Println` calls in the source are pure logging and are not
  modelled.
* `theme.Padding()` is an external theme constant; it is passed as the
  parameter `pad`.  The device orientation used by adaptive layouts is the
  parameter `devHorizontal`.
-/

namespace WeightedGrid

/-- Size value (fyne.Size) with rational components. -/
structure GSize where
  width : ℚ
  height : ℚ
deriving DecidableEq, Repr

/-- Position value (fyne.Position) with rational components. -/
structure GPos where
  x : ℚ
  y : ℚ
deriving DecidableEq, Repr

/-- Componentwise maximum, as fyne's Size.Max. -/
def GSize.Max (a b : GSize) : GSize := ⟨max a.width b.width, max a.height b.height⟩

/-- Componentwise addition, as fyne's Size.Add. -/
def GSize.Add (a b : GSize) : GSize := ⟨a.width + b.width, a.height + b.height⟩

/-- The capability set of a child object that the layout consumes:
visibility and intrinsic minimum size. -/
structure Child where
  visible : Bool
  minSize : GSize
deriving DecidableEq, Repr

/-- The weightedGridLayout struct: per-slot weights `Cols`, their
precomputed sum `TotalCols`, and the two orientation flags. -/
structure WeightedGridLayout where
  Cols : List ℤ
  TotalCols : ℤ
  vertical : Bool
  adapt : Bool
deriving DecidableEq, Repr

/-- The helper `sum` of the source: sum of a weight list. -/
def sumCols (cols : List ℤ) : ℤ := cols.foldl (fun res col => res + col) 0

/-- NewAdaptiveWeightedGridLayout: adapt = true. -/
def NewAdaptiveWeightedGridLayout (rowcols : List ℤ) : WeightedGridLayout :=
  ⟨rowcols, sumCols rowcols, false, true⟩

/-- NewWeightedGridLayoutWithColumns: horizontal (vertical = false). -/
def NewWeightedGridLayoutWithColumns (cols : List ℤ) : WeightedGridLayout :=
  ⟨cols, sumCols cols, false, false⟩

/-- NewWeightedGridLayout delegates to NewWeightedGridLayoutWithColumns. -/
def NewWeightedGridLayout (cols : List ℤ) : WeightedGridLayout :=
  NewWeightedGridLayoutWithColumns cols

/-- NewWeightedGridLayoutWithRows: vertical = true. -/
def NewWeightedGridLayoutWithRows (rows : List ℤ) : WeightedGridLayout :=
  ⟨rows, sumCols rows, true, false⟩

/-- weightedGridLayout.horizontal: adaptive layouts read the device
orientation (passed here as devHorizontal), otherwise the negation of the
vertical flag. -/
def WeightedGridLayout.horizontal (g : WeightedGridLayout) (devHorizontal : Bool) : Bool :=
  if g.adapt then devHorizontal else !g.vertical

/-- The running sum of the countRows loop: weights of visible children
accumulated left to right (invisible children add nothing). -/
def sumVisibleWeights (items : List (Child × ℤ)) : ℤ :=
  items.foldl (fun acc p => if p.1.visible then acc + p.2 else acc) 0

/-- weightedGridLayout.countRows: ceil of (sum of visible weights) /
TotalCols.  The Go loop reads g.Cols[i] for child i; the pairing of each
child with its weight is the zip of the two parallel lists. -/
def WeightedGridLayout.countRows (g : WeightedGridLayout) (objects : List Child) : ℤ :=
  ⌈(sumVisibleWeights (objects.zip g.Cols) : ℚ) / (g.TotalCols : ℚ)⌉

/-- Modelled from the spec: the helper getLeading is absent from src (only
its call sites are).  The spec defines the top-left corner of a cell as the
leading edge of (cellSize × cellIndex) + padding × cellIndex. -/
def getLeading (pad : ℚ) (size : ℚ) (offset : ℤ) : ℚ :=
  (size + pad) * (offset : ℚ)

/-- Modelled from the spec: the helper getTrailing is absent from src.  The
spec defines the trailing edge of the last spanned unit cell so that a
spanning child absorbs the inter-cell padding it covers: the leading edge
of the next cell minus one padding. -/
def getTrailing (pad : ℚ) (size : ℚ) (offset : ℤ) : ℚ :=
  getLeading pad size (offset + 1) - pad

/-- The cursor state of the Layout walk: (row, col) grid position and the
flat unit index i. -/
structure Cursor where
  row : ℤ
  col : ℤ
  i : ℤ
deriving DecidableEq, Repr

/-- One iteration of the per-unit advance loop in Layout. -/
def advance1 (T : ℤ) (horizontal : Bool) (c : Cursor) : Cursor :=
  if horizontal then
    if (c.i + 1) % T = 0 then ⟨c.row + 1, 0, c.i + 1⟩
    else ⟨c.row, c.col + 1, c.i + 1⟩
  else
    if (c.i + 1) % T = 0 then ⟨0, c.col + 1, c.i + 1⟩
    else ⟨c.row + 1, c.col, c.i + 1⟩

/-- The whole advance loop: `for span > 0 { ...; span-- }` runs
max(span, 0) times. -/
def advanceSpan (T : ℤ) (horizontal : Bool) (span : ℤ) (c : Cursor) : Cursor :=
  (advance1 T horizontal)^[span.toNat] c

/-- The Move/Resize computation for one visible child of weight `span` at
cursor `c`: position (x1, y1) and size (x2-x1, y2-y1). -/
def placeChild (pad cw ch : ℚ) (horizontal : Bool) (span : ℤ) (c : Cursor) : GPos × GSize :=
  let colSpan : ℤ := if horizontal then span else 1
  let rowSpan : ℤ := if horizontal then 1 else span
  let x1 := getLeading pad cw c.col
  let y1 := getLeading pad ch c.row
  let x2 := getTrailing pad cw (c.col + colSpan - 1)
  let y2 := getTrailing pad ch (c.row + rowSpan - 1)
  (⟨x1, y1⟩, ⟨x2 - x1, y2 - y1⟩)

/-- Processing of one (child, weight) pair by the walk: the cursor advances
span unit steps for a visible child and is untouched for an invisible one. -/
def stepCursor (T : ℤ) (horizontal : Bool) (cur : Cursor) (p : Child × ℤ) : Cursor :=
  if p.1.visible then advanceSpan T horizontal p.2 cur else cur

/-- The child walk of Layout: for each (child, weight) pair emit the
Move/Resize call performed on it (`none` for an invisible child, which is
skipped and consumes no grid position). -/
def layoutAux (pad cw ch : ℚ) (T : ℤ) (horizontal : Bool) :
    List (Child × ℤ) → Cursor → List (Option (GPos × GSize))
  | [], _ => []
  | p :: rest, cur =>
    if p.1.visible then
      some (placeChild pad cw ch horizontal p.2 cur) ::
        layoutAux pad cw ch T horizontal rest (stepCursor T horizontal cur p)
    else
      none :: layoutAux pad cw ch T horizontal rest (stepCursor T horizontal cur p)

/-- The cursor held by the walk after processing a list of (child, weight)
pairs, starting from the all-zero cursor. -/
def cursorBefore (T : ℤ) (horizontal : Bool) (items : List (Child × ℤ)) : Cursor :=
  items.foldl (stepCursor T horizontal) ⟨0, 0, 0⟩

/-- The invariant of the horizontal-mode walk cursor: the flat unit index
is nonnegative, the column is its remainder modulo TotalCols and the row
its quotient. -/
def cursorInv (T : ℤ) (cur : Cursor) : Prop :=
  0 ≤ cur.i ∧ cur.col = cur.i % T ∧ cur.row = cur.i / T

/-- The cell geometry computed at the top of Layout: (cellWidth,
cellHeight) from the container size, the row count and the paddings, with
the vertical-mode swap. -/
def cellSizes (T rows : ℤ) (horizontal : Bool) (pad : ℚ) (size : GSize) : ℚ × ℚ :=
  if horizontal then
    ((size.width - (T - 1 : ℤ) * pad) / (T : ℚ),
     (size.height - (rows - 1 : ℤ) * pad) / (rows : ℚ))
  else
    ((size.width - (rows - 1 : ℤ) * pad) / (rows : ℚ),
     (size.height - (T - 1 : ℤ) * pad) / (T : ℚ))

/-- weightedGridLayout.Layout: the list of Move/Resize calls performed on
the children, entry k for child k. -/
def WeightedGridLayout.Layout (g : WeightedGridLayout) (devHorizontal : Bool) (pad : ℚ)
    (objects : List Child) (size : GSize) : List (Option (GPos × GSize)) :=
  let rows := g.countRows objects
  let hor := g.horizontal devHorizontal
  let cs := cellSizes g.TotalCols rows hor pad size
  layoutAux pad cs.1 cs.2 g.TotalCols hor (objects.zip g.Cols) ⟨0, 0, 0⟩

/-- The accumulator loop of MinSize: for each visible child, its minimum
size with the height divided by its weight, folded with componentwise Max. -/
def minSizeFold (acc : GSize) : List (Child × ℤ) → GSize
  | [] => acc
  | p :: rest =>
    if p.1.visible then
      minSizeFold (acc.Max ⟨p.1.minSize.width, p.1.minSize.height / (p.2 : ℚ)⟩) rest
    else
      minSizeFold acc rest

/-- weightedGridLayout.MinSize. -/
def WeightedGridLayout.MinSize (g : WeightedGridLayout) (devHorizontal : Bool) (pad : ℚ)
    (objects : List Child) : GSize :=
  let rows := g.countRows objects
  let m := minSizeFold ⟨0, 0⟩ (objects.zip g.Cols)
  if g.horizontal devHorizontal then
    (GSize.Add ⟨m.width * (g.TotalCols : ℚ), m.height * (rows : ℚ)⟩
      ⟨pad * max ((g.TotalCols - 1 : ℤ) : ℚ) 0, pad * max ((rows - 1 : ℤ) : ℚ) 0⟩)
  else
    (GSize.Add ⟨m.width * (rows : ℚ), m.height * (g.TotalCols : ℚ)⟩
      ⟨pad * max ((rows - 1 : ℤ) : ℚ) 0, pad * max ((g.TotalCols - 1 : ℤ) : ℚ) 0⟩)

/-- The MinSize algorithm as the spec words it (for comparison with
WeightedGridLayout.MinSize): each visible child's minimum size is divided
by its weight along the cross-flow dimension, namely the height in
horizontal mode and, transposed, the width in vertical mode; then the
per-axis maximum, the content multiplication and the padding terms as in
the source. -/
def minSizeFoldSpec (horizontal : Bool) (acc : GSize) : List (Child × ℤ) → GSize
  | [] => acc
  | p :: rest =>
    if p.1.visible then
      minSizeFoldSpec horizontal
        (acc.Max (if horizontal then ⟨p.1.minSize.width, p.1.minSize.height / (p.2 : ℚ)⟩
                  else ⟨p.1.minSize.width / (p.2 : ℚ), p.1.minSize.height⟩)) rest
    else
      minSizeFoldSpec horizontal acc rest

/-- The spec-worded MinSize of claim C5, built on minSizeFoldSpec. -/
def MinSizeSpec (g : WeightedGridLayout) (devHorizontal : Bool) (pad : ℚ)
    (objects : List Child) : GSize :=
  let rows := g.countRows objects
  let hor := g.horizontal devHorizontal
  let m := minSizeFoldSpec hor ⟨0, 0⟩ (objects.zip g.Cols)
  if hor then
    (GSize.Add ⟨m.width * (g.TotalCols : ℚ), m.height * (rows : ℚ)⟩
      ⟨pad * max ((g.TotalCols - 1 : ℤ) : ℚ) 0, pad * max ((rows - 1 : ℤ) : ℚ) 0⟩)
  else
    (GSize.Add ⟨m.width * (rows : ℚ), m.height * (g.TotalCols : ℚ)⟩
      ⟨pad * max ((rows - 1 : ℤ) : ℚ) 0, pad * max ((g.TotalCols - 1 : ℤ) : ℚ) 0⟩)

/-- The per-unit minimum of one visible child as MinSize uses it: intrinsic
minimum size with the height divided by the weight (in both orientation
modes). -/
def perUnitMin (p : Child × ℤ) : GSize :=
  ⟨p.1.minSize.width, p.1.minSize.height / (p.2 : ℚ)⟩

/-- Closed form of the MinSize accumulator: componentwise supremum (with 0)
of the per-unit minima of the visible children. -/
def minSizeSup (items : List (Child × ℤ)) : GSize :=
  ⟨((items.filter (fun p => p.1.visible)).map (fun p => (perUnitMin p).width)).foldr max 0,
   ((items.filter (fun p => p.1.visible)).map (fun p => (perUnitMin p).height)).foldr max 0⟩

end WeightedGrid

namespace CMButtonModel

/-- ButtonImportance values used by CMButton. -/
inductive Importance where
  | Medium : Importance
  | High : Importance
  | Low : Importance
deriving DecidableEq, Repr

/-- The CMButton state the claims depend on, with colors drawn from an
abstract color type α (image/color.Color is external).  `tapAnimSet`
records whether tapAnim is non-nil and `hasOnTapped` whether the OnTapped
callback is non-nil. -/
structure CMButton (α : Type) where
  disabled : Bool
  hovered : Bool
  focused : Bool
  importance : Importance
  ColorEnabled : α
  ColorDisabled : α
  ColorFocused : α
  ColorPrimary : α
  ColorHover : α
  tapAnimSet : Bool
  hasOnTapped : Bool
deriving DecidableEq, Repr

/-- Observable effects a call to Tapped can perform, in order. -/
inductive TapEffect where
  | animStop : TapEffect
  | animStart : TapEffect
  | refresh : TapEffect
  | onTapped : TapEffect
deriving DecidableEq, Repr

/-- CMButton.tapAnimation: nothing when tapAnim is nil, otherwise Stop then
Start on the animation. -/
def tapAnimation {α : Type} (b : CMButton α) : List TapEffect :=
  if b.tapAnimSet then [TapEffect.animStop, TapEffect.animStart] else []

/-- CMButton.Tapped: the resulting button state and the ordered effects the
call performs.  A disabled button returns immediately. -/
def Tapped {α : Type} (b : CMButton α) : CMButton α × List TapEffect :=
  if b.disabled then (b, [])
  else
    (b, tapAnimation b ++ [TapEffect.refresh] ++
      (if b.hasOnTapped then [TapEffect.onTapped] else []))

/-- cmButtonRenderer.buttonColor.  blendColor is an external helper of the
toolkit, passed as a parameter. -/
def buttonColor {α : Type} (blendColor : α → α → α) (b : CMButton α) : α :=
  if b.disabled then b.ColorDisabled
  else if b.focused then blendColor b.ColorEnabled b.ColorFocused
  else if b.hovered then
    blendColor (if b.importance = Importance.High then b.ColorPrimary else b.ColorEnabled)
      b.ColorHover
  else if b.importance = Importance.High then b.ColorPrimary
  else b.ColorEnabled

end CMButtonModel

namespace WeightedGrid

theorem foldl_sumVisible_invisible (items : List (Child × ℤ)) (acc : ℤ)
    (h : ∀ p ∈ items, p.1.visible = false) :
    items.foldl (fun acc p => if p.1.visible then acc + p.2 else acc) acc = acc := by
  induction items generalizing acc with
  | nil => rfl
  | cons p rest ih =>
    have hp := h p (List.mem_cons_self p rest)
    simp only [List.foldl_cons, hp, if_neg (by simp [hp] : ¬ p.1.visible = true)]
    exact ih acc (fun q hq => h q (List.mem_cons_of_mem p hq))

theorem countRows_of_invisible (g : WeightedGridLayout) (objects : List Child)
    (h : ∀ c ∈ objects, c.visible = false) : g.countRows objects = 0 := by
  have hz : sumVisibleWeights (objects.zip g.Cols) = 0 := by
    refine foldl_sumVisible_invisible _ 0 (fun p hp => ?_)
    exact h p.1 (List.of_mem_zip hp).1
  simp [WeightedGridLayout.countRows, hz]

theorem layoutAux_of_invisible (pad cw ch : ℚ) (T : ℤ) (hor : Bool)
    (items : List (Child × ℤ)) (cur : Cursor)
    (h : ∀ p ∈ items, p.1.visible = false) :
    layoutAux pad cw ch T hor items cur = List.replicate items.length none := by
  induction items generalizing cur with
  | nil => rfl
  | cons p rest ih =>
    have hp := h p (List.mem_cons_self p rest)
    simp [layoutAux, hp, stepCursor,
      ih _ (fun q hq => h q (List.mem_cons_of_mem p hq)), List.replicate_succ]

theorem minSizeFold_of_invisible (items : List (Child × ℤ)) (acc : GSize)
    (h : ∀ p ∈ items, p.1.visible = false) : minSizeFold acc items = acc := by
  induction items generalizing acc with
  | nil => rfl
  | cons p rest ih =>
    have hp := h p (List.mem_cons_self p rest)
    simp only [minSizeFold, hp, if_neg (by simp [hp] : ¬ p.1.visible = true)]
    exact ih acc (fun q hq => h q (List.mem_cons_of_mem p hq))

theorem advanceSpan_one (T : ℤ) (hor : Bool) (c : Cursor) :
    advanceSpan T hor 1 c = advance1 T hor c := rfl

theorem advanceSpan_two (T : ℤ) (hor : Bool) (c : Cursor) :
    advanceSpan T hor 2 c = advance1 T hor (advance1 T hor c) := rfl

/-- C1 counterexample: with rows [1,2,1] (vertical, totalWeight 4), three
visible children, container 100×300 and zero padding, the children's
computed heights are not 100, 200, 100 as the claim states (the per-unit
cell height is 300/4 = 75, and 75 + 150 + 75 exhausts the 300 available,
while 100 + 200 + 100 = 400 would not fit). -/
theorem C1_counterexample :
    ((NewWeightedGridLayoutWithRows [1, 2, 1]).Layout false 0
      [⟨true, ⟨0, 0⟩⟩, ⟨true, ⟨0, 0⟩⟩, ⟨true, ⟨0, 0⟩⟩] ⟨100, 300⟩).map
        (Option.map (fun r => r.2.height)) ≠ [some 100, some 200, some 100] := by
  norm_num [WeightedGridLayout.Layout, WeightedGridLayout.countRows,
    WeightedGridLayout.horizontal, NewWeightedGridLayoutWithRows, sumCols,
    sumVisibleWeights, cellSizes, layoutAux, placeChild, getLeading, getTrailing,
    stepCursor, advanceSpan_one, advanceSpan_two, advance1, List.zip, List.zipWith,
    List.foldl]

/-- C1 (amended): with rows [1,2,1] (vertical, totalWeight 4), three visible
children, container 100×300 and zero padding, the per-unit cell height is
300/4 = 75, so Layout moves child 0 to (0,0) with size 100×75, child 1
(weight 2, spanning two units) to (0,75) with size 100×150, and child 2 to
(0,225) with size 100×75; each child is 100 wide. -/
theorem C1_vertical_rows_layout :
    (NewWeightedGridLayoutWithRows [1, 2, 1]).Layout false 0
      [⟨true, ⟨0, 0⟩⟩, ⟨true, ⟨0, 0⟩⟩, ⟨true, ⟨0, 0⟩⟩] ⟨100, 300⟩ =
      [some (⟨0, 0⟩, ⟨100, 75⟩), some (⟨0, 75⟩, ⟨100, 150⟩),
       some (⟨0, 225⟩, ⟨100, 75⟩)] := by
  norm_num [WeightedGridLayout.Layout, WeightedGridLayout.countRows,
    WeightedGridLayout.horizontal, NewWeightedGridLayoutWithRows, sumCols,
    sumVisibleWeights, cellSizes, layoutAux, placeChild, getLeading, getTrailing,
    stepCursor, advanceSpan_one, advanceSpan_two, advance1, List.zip, List.zipWith,
    List.foldl]

/-- C7: with columns [1,1,2] (horizontal, totalWeight 4), three visible
children, container 400×100 and zero padding, countRows is 1 and Layout
places child 0 at x=0 with width 100, child 1 at x=100 with width 100, and
child 2 (span 2) at x=200 with width 200, each 100 tall. -/
theorem C7_horizontal_cols_layout :
    (NewWeightedGridLayoutWithColumns [1, 1, 2]).countRows
      [⟨true, ⟨0, 0⟩⟩, ⟨true, ⟨0, 0⟩⟩, ⟨true, ⟨0, 0⟩⟩] = 1 ∧
    (NewWeightedGridLayoutWithColumns [1, 1, 2]).Layout false 0
      [⟨true, ⟨0, 0⟩⟩, ⟨true, ⟨0, 0⟩⟩, ⟨true, ⟨0, 0⟩⟩] ⟨400, 100⟩ =
      [some (⟨0, 0⟩, ⟨100, 100⟩), some (⟨100, 0⟩, ⟨100, 100⟩),
       some (⟨200, 0⟩, ⟨200, 100⟩)] := by
  norm_num [WeightedGridLayout.Layout, WeightedGridLayout.countRows,
    WeightedGridLayout.horizontal, NewWeightedGridLayoutWithColumns, sumCols,
    sumVisibleWeights, cellSizes, layoutAux, placeChild, getLeading, getTrailing,
    stepCursor, advanceSpan_one, advanceSpan_two, advance1, List.zip, List.zipWith,
    List.foldl]

/-- C2 counterexample: a layout with columns [1,1] (totalWeight 2), unit
padding 4 and a single invisible child has countRows 0 but MinSize
(4, 0) ≠ (0, 0): the padding term survives even with no visible child. -/
theorem C2_counterexample :
    (NewWeightedGridLayoutWithColumns [1, 1]).countRows [⟨false, ⟨10, 10⟩⟩] = 0 ∧
    (NewWeightedGridLayoutWithColumns [1, 1]).MinSize false 4 [⟨false, ⟨10, 10⟩⟩] ≠
      ⟨0, 0⟩ := by
  norm_num [WeightedGridLayout.MinSize, WeightedGridLayout.countRows,
    WeightedGridLayout.horizontal, NewWeightedGridLayoutWithColumns, sumCols,
    sumVisibleWeights, minSizeFold, GSize.Add, GSize.Max, List.zip, List.zipWith,
    List.foldl, GSize.mk.injEq]

/-- C2 (amended): for every layout with totalWeight > 0 and every child
list with no visible child, countRows returns 0, Layout performs no
Move/Resize call on any child, and MinSize returns the padding-only size —
unitPadding × max(totalWeight−1, 0) on the wrapping axis and 0 on the flow
axis (transposed in vertical mode) — which is (0,0) exactly when the
padding term vanishes; no fault or division by zero occurs. -/
theorem C2_no_visible_children (g : WeightedGridLayout) (devH : Bool) (pad : ℚ)
    (objects : List Child) (size : GSize) (hT : 0 < g.TotalCols)
    (h : ∀ c ∈ objects, c.visible = false) :
    g.countRows objects = 0 ∧
    g.Layout devH pad objects size = List.replicate (objects.zip g.Cols).length none ∧
    g.MinSize devH pad objects =
      (if g.horizontal devH then (⟨pad * max ((g.TotalCols - 1 : ℤ) : ℚ) 0, 0⟩ : GSize)
       else ⟨0, pad * max ((g.TotalCols - 1 : ℤ) : ℚ) 0⟩) := by
  have h0 : g.countRows objects = 0 := countRows_of_invisible g objects h
  have hz : ∀ p ∈ objects.zip g.Cols, p.1.visible = false :=
    fun p hp => h p.1 (List.of_mem_zip hp).1
  refine ⟨h0, ?_, ?_⟩
  · unfold WeightedGridLayout.Layout
    exact layoutAux_of_invisible _ _ _ _ _ _ _ hz
  · unfold WeightedGridLayout.MinSize
    rw [h0, minSizeFold_of_invisible _ _ hz]
    have hm1 : max (((0 : ℤ) - 1 : ℤ) : ℚ) 0 = 0 := by norm_num
    by_cases hh : g.horizontal devH <;>
      simp [hh, GSize.Add, hm1]

theorem C2_witness :
    (NewWeightedGridLayoutWithColumns [1, 1]).countRows [⟨false, ⟨10, 10⟩⟩] = 0 :=
  (C2_no_visible_children (NewWeightedGridLayoutWithColumns [1, 1]) false 4
    [⟨false, ⟨10, 10⟩⟩] ⟨100, 100⟩
    (by norm_num [NewWeightedGridLayoutWithColumns, sumCols])
    (by intro c hc; rw [List.mem_singleton] at hc; subst hc; rfl)).1

/-- C5 counterexample: in vertical mode with rows [2] (totalWeight 2) and a
single visible child of minimum size 10×10, the source divides the child's
HEIGHT by its weight (giving MinSize 10×10), while the claim's transposed
division of the width would give 5×20. -/
theorem C5_counterexample :
    (NewWeightedGridLayoutWithRows [2]).MinSize false 0 [⟨true, ⟨10, 10⟩⟩] ≠
    MinSizeSpec (NewWeightedGridLayoutWithRows [2]) false 0 [⟨true, ⟨10, 10⟩⟩] := by
  norm_num [WeightedGridLayout.MinSize, MinSizeSpec, WeightedGridLayout.countRows,
    WeightedGridLayout.horizontal, NewWeightedGridLayoutWithRows, sumCols,
    sumVisibleWeights, minSizeFold, minSizeFoldSpec, GSize.Add, GSize.Max, List.zip,
    List.zipWith, List.foldl, GSize.mk.injEq]

theorem gsizeMax_assoc (a b c : GSize) :
    GSize.Max (GSize.Max a b) c = GSize.Max a (GSize.Max b c) := by
  simp [GSize.Max, max_assoc]

theorem foldr_max_nonneg (l : List ℚ) : 0 ≤ l.foldr max 0 := by
  induction l with
  | nil => simp
  | cons x l ih => exact le_trans ih (le_max_right x _)

theorem minSizeSup_cons_visible (p : Child × ℤ) (items : List (Child × ℤ))
    (hp : p.1.visible = true) :
    minSizeSup (p :: items) = GSize.Max (perUnitMin p) (minSizeSup items) := by
  simp [minSizeSup, GSize.Max, hp]

theorem minSizeSup_cons_invisible (p : Child × ℤ) (items : List (Child × ℤ))
    (hp : p.1.visible = false) :
    minSizeSup (p :: items) = minSizeSup items := by
  simp [minSizeSup, hp]

theorem minSizeFold_cons_visible (acc : GSize) (p : Child × ℤ) (rest : List (Child × ℤ))
    (hp : p.1.visible = true) :
    minSizeFold acc (p :: rest) = minSizeFold (GSize.Max acc (perUnitMin p)) rest := by
  simp [minSizeFold, hp, perUnitMin]

theorem minSizeFold_cons_invisible (acc : GSize) (p : Child × ℤ) (rest : List (Child × ℤ))
    (hp : p.1.visible = false) :
    minSizeFold acc (p :: rest) = minSizeFold acc rest := by
  simp [minSizeFold, hp]

theorem minSizeFold_eq_sup (items : List (Child × ℤ)) :
    ∀ acc : GSize, 0 ≤ acc.width → 0 ≤ acc.height →
      minSizeFold acc items = GSize.Max acc (minSizeSup items) := by
  induction items with
  | nil =>
    intro acc hw hh
    simp [minSizeFold, minSizeSup, GSize.Max, max_eq_left hw, max_eq_left hh]
  | cons p rest ih =>
    intro acc hw hh
    by_cases hp : p.1.visible = true
    · have hw' : 0 ≤ (GSize.Max acc (perUnitMin p)).width :=
        le_trans hw (le_max_left acc.width (perUnitMin p).width)
      have hh' : 0 ≤ (GSize.Max acc (perUnitMin p)).height :=
        le_trans hh (le_max_left acc.height (perUnitMin p).height)
      rw [minSizeSup_cons_visible p rest hp, minSizeFold_cons_visible acc p rest hp,
        ih (GSize.Max acc (perUnitMin p)) hw' hh', gsizeMax_assoc]
    · have hp' : p.1.visible = false := by simpa using hp
      rw [minSizeSup_cons_invisible p rest hp', minSizeFold_cons_invisible acc p rest hp']
      exact ih acc hw hh

theorem gsizeMax_zero_left (s : GSize) (hw : 0 ≤ s.width) (hh : 0 ≤ s.height) :
    GSize.Max ⟨0, 0⟩ s = s := by
  simp [GSize.Max, max_eq_right hw, max_eq_right hh]

/-- C5 (amended): MinSize divides each visible child's intrinsic minimum
HEIGHT by the child's weight in BOTH orientation modes (the division step
is not transposed in vertical mode), takes the per-axis supremum (with 0)
of these per-unit minima, multiplies the per-unit width by totalWeight and
the per-unit height by the row count R — transposed in vertical mode — and
adds padding unitPadding × max(totalWeight−1, 0) and
unitPadding × max(R−1, 0) on the respective axes. -/
theorem C5_minSize_closed_form (g : WeightedGridLayout) (devH : Bool) (pad : ℚ)
    (objects : List Child) :
    g.MinSize devH pad objects =
      (let rows := g.countRows objects
       let m := minSizeSup (objects.zip g.Cols)
       if g.horizontal devH then
         GSize.Add ⟨m.width * (g.TotalCols : ℚ), m.height * (rows : ℚ)⟩
           ⟨pad * max ((g.TotalCols - 1 : ℤ) : ℚ) 0, pad * max ((rows - 1 : ℤ) : ℚ) 0⟩
       else
         GSize.Add ⟨m.width * (rows : ℚ), m.height * (g.TotalCols : ℚ)⟩
           ⟨pad * max ((rows - 1 : ℤ) : ℚ) 0, pad * max ((g.TotalCols - 1 : ℤ) : ℚ) 0⟩) := by
  unfold WeightedGridLayout.MinSize
  rw [minSizeFold_eq_sup _ _ le_rfl le_rfl,
    gsizeMax_zero_left _ (foldr_max_nonneg _) (foldr_max_nonneg _)]

end WeightedGrid

namespace CMButtonModel

/-- C9: a disabled CMButton's Tapped returns immediately: it performs no
animation stop/start, no Refresh, does not invoke OnTapped, and leaves the
button state unchanged. -/
theorem C9_tapped_disabled {α : Type} (b : CMButton α) (h : b.disabled = true) :
    Tapped b = (b, []) := by
  simp [Tapped, h]

theorem C9_witness :
    Tapped (⟨true, false, false, Importance.Medium, 0, 1, 2, 3, 4, true, true⟩ :
      CMButton ℕ) =
    (⟨true, false, false, Importance.Medium, 0, 1, 2, 3, 4, true, true⟩, []) :=
  C9_tapped_disabled _ rfl

/-- C10: the background color follows the fixed priority order of
buttonColor: disabled ⇒ ColorDisabled; otherwise focused ⇒ blend of
ColorEnabled and ColorFocused; otherwise hovered ⇒ blend of ColorPrimary
(if HighImportance) or ColorEnabled with ColorHover; otherwise
HighImportance ⇒ ColorPrimary; otherwise ColorEnabled.  The five guard
combinations are mutually exclusive and exhaustive, so exactly one branch
applies to any state and the result is a deterministic function of it. -/
theorem C10_buttonColor_priority {α : Type} (blendColor : α → α → α) (b : CMButton α) :
    (b.disabled = true → buttonColor blendColor b = b.ColorDisabled) ∧
    (b.disabled = false → b.focused = true →
      buttonColor blendColor b = blendColor b.ColorEnabled b.ColorFocused) ∧
    (b.disabled = false → b.focused = false → b.hovered = true →
      buttonColor blendColor b =
        blendColor
          (if b.importance = Importance.High then b.ColorPrimary else b.ColorEnabled)
          b.ColorHover) ∧
    (b.disabled = false → b.focused = false → b.hovered = false →
      b.importance = Importance.High → buttonColor blendColor b = b.ColorPrimary) ∧
    (b.disabled = false → b.focused = false → b.hovered = false →
      b.importance ≠ Importance.High → buttonColor blendColor b = b.ColorEnabled) := by
  refine ⟨?_, ?_, ?_, ?_, ?_⟩
  · intro h1
    simp [buttonColor, h1]
  · intro h1 h2
    simp [buttonColor, h1, h2]
  · intro h1 h2 h3
    simp [buttonColor, h1, h2, h3]
  · intro h1 h2 h3 h4
    simp [buttonColor, h1, h2, h3, h4]
  · intro h1 h2 h3 h4
    simp [buttonColor, h1, h2, h3, h4]

theorem C10_witness :
    buttonColor (fun x y => x + y)
      (⟨true, false, false, Importance.Medium, (0 : ℕ), 10, 2, 3, 4, false, false⟩ :
        CMButton ℕ) = 10 :=
  (C10_buttonColor_priority (fun x y => x + y) _).1 rfl

end CMButtonModel

namespace WeightedGrid

theorem foldl_sumVisible_eq (items : List (Child × ℤ)) :
    ∀ acc : ℤ,
      items.foldl (fun acc p => if p.1.visible then acc + p.2 else acc) acc =
        acc + ((items.filter (fun p => p.1.visible)).map (fun p => p.2)).sum := by
  induction items with
  | nil => intro acc; simp
  | cons p rest ih =>
    intro acc
    rw [List.foldl_cons]
    cases hv : p.1.visible with
    | false => simp [hv, ih acc]
    | true =>
      rw [List.filter_cons_of_pos (by simp [hv]), List.map_cons, List.sum_cons]
      simp only [hv, if_true, ih (acc + p.2)]
      ring

theorem sumVisibleWeights_eq_filter_sum (items : List (Child × ℤ)) :
    sumVisibleWeights items =
      ((items.filter (fun p => p.1.visible)).map (fun p => p.2)).sum := by
  unfold sumVisibleWeights
  rw [foldl_sumVisible_eq items 0, zero_add]

/-- C4: countRows is the sum of the weights of the visible children (each
child paired with its weight slot; invisible children contribute zero),
divided by totalWeight and rounded up. -/
theorem C4_countRows (g : WeightedGridLayout) (objects : List Child)
    (h : objects.length = g.Cols.length) :
    g.countRows objects =
      ⌈(((((objects.zip g.Cols).filter (fun p => p.1.visible)).map
          (fun p => p.2)).sum : ℤ) : ℚ) / (g.TotalCols : ℚ)⌉ := by
  unfold WeightedGridLayout.countRows
  rw [sumVisibleWeights_eq_filter_sum]

theorem C4_witness :
    (NewWeightedGridLayoutWithColumns [2, 3]).countRows
        [⟨true, ⟨0, 0⟩⟩, ⟨false, ⟨0, 0⟩⟩] =
      ⌈(((((([⟨true, ⟨0, 0⟩⟩, ⟨false, ⟨0, 0⟩⟩] : List Child).zip
          (NewWeightedGridLayoutWithColumns [2, 3]).Cols).filter
            (fun p => p.1.visible)).map (fun p => p.2)).sum : ℤ) : ℚ) /
        ((NewWeightedGridLayoutWithColumns [2, 3]).TotalCols : ℚ)⌉ :=
  C4_countRows (NewWeightedGridLayoutWithColumns [2, 3])
    [⟨true, ⟨0, 0⟩⟩, ⟨false, ⟨0, 0⟩⟩] rfl

theorem layoutAux_entry (pad cw ch : ℚ) (T : ℤ) (hor : Bool) :
    ∀ (items : List (Child × ℤ)) (cur : Cursor) (k : ℕ),
      (layoutAux pad cw ch T hor items cur)[k]? =
        (items[k]?).map (fun p =>
          if p.1.visible then
            some (placeChild pad cw ch hor p.2
              ((items.take k).foldl (stepCursor T hor) cur))
          else none) := by
  intro items
  induction items with
  | nil => intro cur k; simp [layoutAux]
  | cons p rest ih =>
    intro cur k
    cases k with
    | zero =>
      cases hv : p.1.visible with
      | false => simp [layoutAux, hv]
      | true => simp [layoutAux, hv]
    | succ k =>
      cases hv : p.1.visible with
      | false =>
        simp only [layoutAux, hv, Bool.false_eq_true, if_false, List.getElem?_cons_succ,
          List.take_succ_cons, List.foldl_cons]
        exact ih (stepCursor T hor cur p) k
      | true =>
        simp only [layoutAux, hv, if_true, List.getElem?_cons_succ,
          List.take_succ_cons, List.foldl_cons]
        exact ih (stepCursor T hor cur p) k

/-- C6: Layout never emits a Move/Resize call for an invisible child (its
entry in the call list is `none`, so its position and size are left
untouched), and an invisible child consumes no grid position: the walk
processes the remaining children from the very same (row, col, i) cursor. -/
theorem C6_invisible_untouched :
    (∀ (g : WeightedGridLayout) (devH : Bool) (pad : ℚ) (objects : List Child)
        (size : GSize) (k : ℕ) (c : Child), objects[k]? = some c →
        c.visible = false → k < g.Cols.length →
        (g.Layout devH pad objects size)[k]? = some none) ∧
    (∀ (pad cw ch : ℚ) (T : ℤ) (hor : Bool) (p : Child × ℤ)
        (rest : List (Child × ℤ)) (cur : Cursor), p.1.visible = false →
        layoutAux pad cw ch T hor (p :: rest) cur =
          none :: layoutAux pad cw ch T hor rest cur) := by
  constructor
  · intro g devH pad objects size k c hk hc hkC
    unfold WeightedGridLayout.Layout
    rw [layoutAux_entry]
    have hz : (objects.zip g.Cols)[k]? = some (c, g.Cols[k]) := by
      rw [List.getElem?_zip_eq_some]
      exact ⟨hk, List.getElem?_eq_getElem hkC⟩
    rw [hz]
    simp [hc]
  · intro pad cw ch T hor p rest cur hp
    simp [layoutAux, stepCursor, hp]

theorem C6_witness :
    ((NewWeightedGridLayoutWithColumns [1, 2]).Layout false 0
      [⟨false, ⟨0, 0⟩⟩, ⟨true, ⟨0, 0⟩⟩] ⟨300, 100⟩)[0]? = some none :=
  C6_invisible_untouched.1 (NewWeightedGridLayoutWithColumns [1, 2]) false 0
    [⟨false, ⟨0, 0⟩⟩, ⟨true, ⟨0, 0⟩⟩] ⟨300, 100⟩ 0 ⟨false, ⟨0, 0⟩⟩ rfl rfl
    (by norm_num [NewWeightedGridLayoutWithColumns])

end WeightedGrid

namespace WeightedGrid

theorem sumVisibleWeights_cons (p : Child × ℤ) (items : List (Child × ℤ)) :
    sumVisibleWeights (p :: items) =
      (if p.1.visible then p.2 else 0) + sumVisibleWeights items := by
  rw [sumVisibleWeights_eq_filter_sum, sumVisibleWeights_eq_filter_sum]
  cases hv : p.1.visible with
  | true =>
    rw [List.filter_cons_of_pos (by simp [hv]), List.map_cons, List.sum_cons]
    simp
  | false =>
    rw [List.filter_cons_of_neg (by simp [hv])]
    simp

theorem layoutAux_skip (pad cw ch : ℚ) (T : ℤ) (hor : Bool) (p : Child × ℤ)
    (rest : List (Child × ℤ)) (cur : Cursor) (hp : p.1.visible = false) :
    layoutAux pad cw ch T hor (p :: rest) cur =
      none :: layoutAux pad cw ch T hor rest cur := by
  simp [layoutAux, stepCursor, hp]

theorem layoutAux_erase_invisible (pad cw ch : ℚ) (T : ℤ) (hor : Bool) (c : Child)
    (w : ℤ) (hc : c.visible = false) :
    ∀ (zp zrest : List (Child × ℤ)) (cur : Cursor),
      (layoutAux pad cw ch T hor (zp ++ (c, w) :: zrest) cur).eraseIdx zp.length =
        layoutAux pad cw ch T hor (zp ++ zrest) cur := by
  intro zp
  induction zp with
  | nil =>
    intro zrest cur
    simp only [List.nil_append, List.length_nil]
    rw [layoutAux_skip pad cw ch T hor (c, w) zrest cur hc, List.eraseIdx_cons_zero]
  | cons q zp ih =>
    intro zrest cur
    simp only [List.cons_append, List.length_cons]
    cases hq : q.1.visible with
    | true =>
      simp only [layoutAux, hq, if_true, List.eraseIdx_cons_succ]
      rw [ih zrest (stepCursor T hor cur q)]
    | false =>
      simp only [layoutAux, hq, Bool.false_eq_true, if_false, List.eraseIdx_cons_succ]
      rw [ih zrest (stepCursor T hor cur q)]

theorem sumVisible_insert_invisible (c : Child) (w : ℤ) (hc : c.visible = false)
    (zp zrest : List (Child × ℤ)) :
    sumVisibleWeights (zp ++ (c, w) :: zrest) = sumVisibleWeights (zp ++ zrest) := by
  rw [sumVisibleWeights_eq_filter_sum, sumVisibleWeights_eq_filter_sum,
    List.filter_append, List.filter_append,
    List.filter_cons_of_neg (by simp [hc])]

/-- C3 counterexample: with columns [1,2] (totalWeight 3), container 300×100
and zero padding, making child 0 invisible leaves the remaining child with
weight slot Cols[1] = 2 (width 200), while omitting child 0 from the child
list shifts the remaining child onto weight slot Cols[0] = 1 (width 100):
the surviving child's geometry differs, so the claim as stated fails. -/
theorem C3_counterexample :
    ((NewWeightedGridLayoutWithColumns [1, 2]).Layout false 0
        [⟨false, ⟨0, 0⟩⟩, ⟨true, ⟨0, 0⟩⟩] ⟨300, 100⟩).filterMap id ≠
    ((NewWeightedGridLayoutWithColumns [1, 2]).Layout false 0
        [⟨true, ⟨0, 0⟩⟩] ⟨300, 100⟩).filterMap id := by
  norm_num [WeightedGridLayout.Layout, WeightedGridLayout.countRows,
    WeightedGridLayout.horizontal, NewWeightedGridLayoutWithColumns, sumCols,
    sumVisibleWeights, cellSizes, layoutAux, placeChild, getLeading, getTrailing,
    stepCursor, advanceSpan_one, advanceSpan_two, advance1, List.zip, List.zipWith,
    List.foldl, List.filterMap, Prod.mk.injEq, GSize.mk.injEq]

/-- C3 (amended): making one child invisible and re-running Layout gives
every remaining child exactly the same Move/Resize call as running Layout
with that child omitted from the child list AND its weight entry omitted
from the weight list, the constructed totalWeight left unchanged: the run
on the reduced input equals the run on the full input with the invisible
child's (absent) call entry erased, and the row counts agree. -/
theorem C3_invisible_vs_omitted (T : ℤ) (vert adp devH : Bool) (pad : ℚ)
    (size : GSize) (pre post : List Child) (wpre wpost : List ℤ) (c : Child)
    (w : ℤ) (hlen : pre.length = wpre.length) (hc : c.visible = false) :
    WeightedGridLayout.countRows ⟨wpre ++ wpost, T, vert, adp⟩ (pre ++ post) =
      WeightedGridLayout.countRows ⟨wpre ++ w :: wpost, T, vert, adp⟩
        (pre ++ c :: post) ∧
    WeightedGridLayout.Layout ⟨wpre ++ wpost, T, vert, adp⟩ devH pad
        (pre ++ post) size =
      (WeightedGridLayout.Layout ⟨wpre ++ w :: wpost, T, vert, adp⟩ devH pad
        (pre ++ c :: post) size).eraseIdx pre.length := by
  have hzip1 : (pre ++ c :: post).zip (wpre ++ w :: wpost) =
      pre.zip wpre ++ (c, w) :: post.zip wpost := by
    rw [List.zip_append hlen]
    rfl
  have hzip2 : (pre ++ post).zip (wpre ++ wpost) = pre.zip wpre ++ post.zip wpost :=
    List.zip_append hlen
  have hcount : WeightedGridLayout.countRows ⟨wpre ++ wpost, T, vert, adp⟩
      (pre ++ post) =
      WeightedGridLayout.countRows ⟨wpre ++ w :: wpost, T, vert, adp⟩
        (pre ++ c :: post) := by
    unfold WeightedGridLayout.countRows
    rw [hzip1, hzip2, sumVisible_insert_invisible c w hc]
  refine ⟨hcount, ?_⟩
  have hlz : (pre.zip wpre).length = pre.length := by
    rw [List.length_zip, hlen, min_self]
  unfold WeightedGridLayout.Layout
  rw [hzip1, hzip2, ← hcount, ← hlz,
    layoutAux_erase_invisible pad _ _ T _ c w hc (pre.zip wpre) (post.zip wpost)]
  rfl

theorem C3_witness :
    WeightedGridLayout.countRows ⟨[2], 3, false, false⟩ [⟨true, ⟨0, 0⟩⟩] =
      WeightedGridLayout.countRows ⟨[1, 2], 3, false, false⟩
        [⟨false, ⟨0, 0⟩⟩, ⟨true, ⟨0, 0⟩⟩] ∧
    WeightedGridLayout.Layout ⟨[2], 3, false, false⟩ false 0 [⟨true, ⟨0, 0⟩⟩]
        ⟨300, 100⟩ =
      (WeightedGridLayout.Layout ⟨[1, 2], 3, false, false⟩ false 0
        [⟨false, ⟨0, 0⟩⟩, ⟨true, ⟨0, 0⟩⟩] ⟨300, 100⟩).eraseIdx 0 :=
  C3_invisible_vs_omitted 3 false false false 0 ⟨300, 100⟩ [] [⟨true, ⟨0, 0⟩⟩]
    [] [2] ⟨false, ⟨0, 0⟩⟩ 1 rfl rfl

end WeightedGrid

namespace WeightedGrid

theorem advance1_true_inv (T : ℤ) (hT : 0 < T) (cur : Cursor) (h : cursorInv T cur) :
    cursorInv T (advance1 T true cur) ∧ (advance1 T true cur).i = cur.i + 1 := by
  obtain ⟨h0, hcol, hrow⟩ := h
  have hTne : T ≠ 0 := ne_of_gt hT
  have hr0 : 0 ≤ cur.i % T := Int.emod_nonneg cur.i hTne
  have hrT : cur.i % T < T := Int.emod_lt_of_pos cur.i hT
  have hdecomp : cur.i + 1 = (cur.i % T + 1) + T * (cur.i / T) := by
    have hde := Int.ediv_add_emod cur.i T
    linarith
  by_cases hw : (cur.i + 1) % T = 0
  · have hmod : (cur.i % T + 1) % T = 0 := by
      rw [hdecomp, Int.add_mul_emod_self_left] at hw
      exact hw
    have heq : cur.i % T + 1 = T := by
      by_contra hne
      have hlt : cur.i % T + 1 < T := lt_of_le_of_ne (by linarith) hne
      rw [Int.emod_eq_of_lt (by linarith) hlt] at hmod
      linarith
    have hdiv : (cur.i + 1) / T = cur.i / T + 1 := by
      rw [hdecomp, heq, show T + T * (cur.i / T) = T * (cur.i / T + 1) by ring,
        Int.mul_ediv_cancel_left _ hTne]
    have hadv : advance1 T true cur = ⟨cur.row + 1, 0, cur.i + 1⟩ := by
      simp [advance1, hw]
    rw [hadv]
    refine ⟨⟨show (0 : ℤ) ≤ cur.i + 1 by linarith, ?_, ?_⟩, rfl⟩
    · exact hw.symm
    · show cur.row + 1 = (cur.i + 1) / T
      rw [hdiv, hrow]
  · have hlt : cur.i % T + 1 < T := by
      rcases lt_or_eq_of_le (show cur.i % T + 1 ≤ T by linarith) with hx | hx
      · exact hx
      · exfalso
        apply hw
        rw [hdecomp, hx, show T + T * (cur.i / T) = T * (1 + cur.i / T) by ring,
          Int.mul_emod_right]
    have hmod : (cur.i + 1) % T = cur.i % T + 1 := by
      rw [hdecomp, Int.add_mul_emod_self_left, Int.emod_eq_of_lt (by linarith) hlt]
    have hdiv : (cur.i + 1) / T = cur.i / T := by
      rw [hdecomp, Int.add_mul_ediv_left _ _ hTne,
        Int.ediv_eq_zero_of_lt (by linarith) hlt, zero_add]
    have hadv : advance1 T true cur = ⟨cur.row, cur.col + 1, cur.i + 1⟩ := by
      simp [advance1, hw]
    rw [hadv]
    refine ⟨⟨show (0 : ℤ) ≤ cur.i + 1 by linarith, ?_, ?_⟩, rfl⟩
    · show cur.col + 1 = (cur.i + 1) % T
      rw [hmod, hcol]
    · show cur.row = (cur.i + 1) / T
      rw [hdiv, hrow]

theorem iterate_advance1_inv (T : ℤ) (hT : 0 < T) :
    ∀ (n : ℕ) (cur : Cursor), cursorInv T cur →
      cursorInv T ((advance1 T true)^[n] cur) ∧
      ((advance1 T true)^[n] cur).i = cur.i + n := by
  intro n
  induction n with
  | zero =>
    intro cur h
    simpa using h
  | succ n ih =>
    intro cur h
    rw [Function.iterate_succ_apply]
    obtain ⟨h1, hi1⟩ := advance1_true_inv T hT cur h
    obtain ⟨h2, hi2⟩ := ih (advance1 T true cur) h1
    refine ⟨h2, ?_⟩
    rw [hi2, hi1]
    push_cast
    ring

theorem stepCursor_inv (T : ℤ) (hT : 0 < T) (cur : Cursor) (p : Child × ℤ)
    (hw : 0 ≤ p.2) (h : cursorInv T cur) :
    cursorInv T (stepCursor T true cur p) ∧
    (stepCursor T true cur p).i = cur.i + (if p.1.visible then p.2 else 0) := by
  cases hv : p.1.visible with
  | false => simpa [stepCursor, hv] using h
  | true =>
    simp only [stepCursor, hv, if_true, advanceSpan]
    obtain ⟨h1, h2⟩ := iterate_advance1_inv T hT p.2.toNat cur h
    exact ⟨h1, by rw [h2, Int.toNat_of_nonneg hw]⟩

theorem foldl_stepCursor_inv (T : ℤ) (hT : 0 < T) :
    ∀ (items : List (Child × ℤ)), (∀ p ∈ items, 0 ≤ p.2) →
      ∀ cur : Cursor, cursorInv T cur →
        cursorInv T (items.foldl (stepCursor T true) cur) ∧
        (items.foldl (stepCursor T true) cur).i = cur.i + sumVisibleWeights items := by
  intro items
  induction items with
  | nil =>
    intro _ cur h
    refine ⟨h, ?_⟩
    simp [sumVisibleWeights]
  | cons p rest ih =>
    intro hw cur h
    rw [List.foldl_cons, sumVisibleWeights_cons]
    obtain ⟨h1, hi1⟩ := stepCursor_inv T hT cur p (hw p (List.mem_cons_self p rest)) h
    obtain ⟨h2, hi2⟩ := ih (fun q hq => hw q (List.mem_cons_of_mem p hq))
      (stepCursor T true cur p) h1
    refine ⟨h2, ?_⟩
    rw [hi2, hi1]
    ring

/-- C8: in horizontal mode, at the moment the walk reaches position k of
the (child, weight) list, the flat unit index i of the cursor equals the
sum of the weights of the visible children already processed, the cursor
satisfies col = i mod totalWeight and row = i div totalWeight (the per-unit
advance loop preserves this across wrap boundaries), and the Move/Resize
call emitted for the k-th child is computed exactly at that cursor. -/
theorem C8_cursor_invariant (pad cw ch : ℚ) (T : ℤ) (hT : 0 < T)
    (items : List (Child × ℤ)) (hw : ∀ p ∈ items, 0 ≤ p.2) (k : ℕ) :
    (cursorBefore T true (items.take k)).i = sumVisibleWeights (items.take k) ∧
    (cursorBefore T true (items.take k)).col =
      (cursorBefore T true (items.take k)).i % T ∧
    (cursorBefore T true (items.take k)).row =
      (cursorBefore T true (items.take k)).i / T ∧
    (layoutAux pad cw ch T true items ⟨0, 0, 0⟩)[k]? =
      (items[k]?).map (fun p =>
        if p.1.visible then
          some (placeChild pad cw ch true p.2 (cursorBefore T true (items.take k)))
        else none) := by
  have hw' : ∀ p ∈ items.take k, 0 ≤ p.2 := fun p hp => hw p (List.take_subset k items hp)
  have h0 : cursorInv T ⟨0, 0, 0⟩ :=
    ⟨le_refl 0, (Int.zero_emod T).symm, (Int.zero_ediv T).symm⟩
  obtain ⟨⟨hnn, hcol, hrow⟩, hi⟩ := foldl_stepCursor_inv T hT (items.take k) hw' ⟨0, 0, 0⟩ h0
  refine ⟨by simpa using hi, hcol, hrow, ?_⟩
  rw [layoutAux_entry]
  rfl

theorem C8_witness :
    (cursorBefore 2 true ([((⟨true, ⟨0, 0⟩⟩ : Child), (1 : ℤ)),
        (⟨true, ⟨0, 0⟩⟩, 2)].take 2)).i =
      sumVisibleWeights ([((⟨true, ⟨0, 0⟩⟩ : Child), (1 : ℤ)),
        (⟨true, ⟨0, 0⟩⟩, 2)].take 2) :=
  (C8_cursor_invariant 0 0 0 2 (by norm_num)
    [(⟨true, ⟨0, 0⟩⟩, 1), (⟨true, ⟨0, 0⟩⟩, 2)] (by decide) 2).1

end WeightedGrid
